import Mathlib

/-!
Verification of the TradingView chart-capture scraper
(`tview_scraper.py` / `main.py`).

Strings are modelled as `List Char`, byte sequences as `List Nat`
(each element `< 256`).  Real-time polling loops are modelled in
discrete time (one tick = 0.1 s, the polling interval used by the
source) and the browser/driver is modelled by oracles giving the
outcome of each external interaction.
-/

namespace TView

/-! ### Python string helpers -/

/-- The character class `[a-zA-Z0-9]` of the share-link regex. -/
def isAlnumChar (c : Char) : Bool :=
  (97 ≤ c.toNat && c.toNat ≤ 122) || (65 ≤ c.toNat && c.toNat ≤ 90)
    || (48 ≤ c.toNat && c.toNat ≤ 57)

/-- `str.lower()` on a single character (the ids are ASCII alphanumeric). -/
def pyLowerChar (c : Char) : Char :=
  if 65 ≤ c.toNat && c.toNat ≤ 90 then Char.ofNat (c.toNat + 32) else c

/-- Whitespace stripped by Python `str.strip()` (ASCII subset). -/
def isPySpace (c : Char) : Bool :=
  c = ' ' || c = '\t' || c = '\n' || c = '\x0d' || c = '\x0b' || c = '\x0c'

/-- Python `str.strip()`. -/
def pyStrip (s : List Char) : List Char :=
  ((s.dropWhile isPySpace).reverse.dropWhile isPySpace).reverse

/-- If `p` is a prefix of `s`, return the remainder, else `none`. -/
def dropPre : List Char → List Char → Option (List Char)
  | [], s => some s
  | _ :: _, [] => none
  | p :: ps, c :: cs => if p = c then dropPre ps cs else none

/-- Python's `needle in hay` substring test. -/
def isSubstr (needle : List Char) : List Char → Bool
  | [] => needle.isEmpty
  | c :: t => (dropPre needle (c :: t)).isSome || isSubstr needle t

/-! ### The share-link regex
`https://(?:www\.|in\.)?tradingview\.com/x/([a-zA-Z0-9]+)/?`
(`tview_scraper.py` line 1195).  The alternatives of the optional host
group and the literal tail are first-character disjoint, so the
committed matcher below is equivalent to the backtracking engine. -/

/-- Literal part `https://` of the pattern. -/
def litHttps : List Char := "https://".toList

/-- Literal alternative `www.` of the host group. -/
def litWww : List Char := "www.".toList

/-- Literal alternative `in.` of the host group. -/
def litIn : List Char := "in.".toList

/-- Literal part `tradingview.com/x/` of the pattern. -/
def litTv : List Char := "tradingview.com/x/".toList

/-- The optional host group `(?:www\.|in\.)?`: returns the consumed
characters and the remainder. -/
def hostSplit (s : List Char) : List Char × List Char :=
  match dropPre litWww s with
  | some r => (litWww, r)
  | none =>
    match dropPre litIn s with
    | some r => (litIn, r)
    | none => ([], s)

/-- The optional trailing `/?`: returns the consumed characters and the
remainder. -/
def slashSplit (s : List Char) : List Char × List Char :=
  match s with
  | [] => ([], [])
  | c :: t => if c = '/' then (['/'], t) else ([], c :: t)

/-- Attempt to match the share-link pattern at the head of `s`.
Returns `(wholeMatch, group1, rest)` on success
(`match.group(0)`, `match.group(1)`, and the text after the match). -/
def matchAt (s : List Char) : Option (List Char × List Char × List Char) :=
  match dropPre litHttps s with
  | none => none
  | some s1 =>
    match dropPre litTv (hostSplit s1).2 with
    | none => none
    | some s3 =>
      if s3.takeWhile isAlnumChar = [] then none
      else
        some (litHttps ++ (hostSplit s1).1 ++ litTv ++ s3.takeWhile isAlnumChar
                ++ (slashSplit (s3.dropWhile isAlnumChar)).1,
              s3.takeWhile isAlnumChar,
              (slashSplit (s3.dropWhile isAlnumChar)).2)

theorem dropPre_length {p s r : List Char} (h : dropPre p s = some r) :
    r.length + p.length = s.length := by
  induction p generalizing s with
  | nil => simp [dropPre] at h; simp [h]
  | cons a ps ih =>
    cases s with
    | nil => simp [dropPre] at h
    | cons c cs =>
      simp only [dropPre] at h
      split at h
      · have := ih h; simp at this ⊢; omega
      · exact absurd h (by simp)

theorem hostSplit_length (s : List Char) : (hostSplit s).2.length ≤ s.length := by
  unfold hostSplit
  cases h1 : dropPre litWww s with
  | some r => have := dropPre_length h1; simp; omega
  | none =>
    cases h2 : dropPre litIn s with
    | some r => have := dropPre_length h2; simp; omega
    | none => simp

theorem slashSplit_length (s : List Char) : (slashSplit s).2.length ≤ s.length := by
  unfold slashSplit
  cases s with
  | nil => simp
  | cons c t => by_cases h : c = '/' <;> simp [h]

theorem matchAt_rest_length {s m id r : List Char}
    (h : matchAt s = some (m, id, r)) : r.length < s.length := by
  unfold matchAt at h
  cases h1 : dropPre litHttps s with
  | none => simp [h1] at h
  | some s1 =>
    have hl1 := dropPre_length h1
    simp only [h1] at h
    have hs2 := hostSplit_length s1
    cases h4 : dropPre litTv (hostSplit s1).2 with
    | none => simp [h4] at h
    | some s3 =>
      have hl4 := dropPre_length h4
      simp only [h4] at h
      by_cases hid : s3.takeWhile isAlnumChar = []
      · rw [if_pos hid] at h; exact absurd h (by simp)
      · rw [if_neg hid] at h
        simp only [Option.some.injEq, Prod.mk.injEq] at h
        obtain ⟨-, -, hr⟩ := h
        have hdw : (s3.dropWhile isAlnumChar).length + (s3.takeWhile isAlnumChar).length
            = s3.length := by
          rw [Nat.add_comm, ← List.length_append, List.takeWhile_append_dropWhile]
        have hne : 1 ≤ (s3.takeWhile isAlnumChar).length := by
          cases hx : s3.takeWhile isAlnumChar with
          | nil => exact absurd hx hid
          | cons _ _ => simp
        have hsl := slashSplit_length (s3.dropWhile isAlnumChar)
        have hrl : r.length ≤ (s3.dropWhile isAlnumChar).length := hr ▸ hsl
        have hlit : litHttps.length = 8 := by decide
        have hlit2 : litTv.length = 18 := by decide
        omega

/-! ### `re.finditer` and `str.replace`

`finditerGo` scans left to right: at each position it tries the
pattern; on success it emits the match and resumes after it, otherwise
it advances one character.  The fuel argument (`= s.length` at the top
entry) only serves structural recursion: every step consumes at least
one character, so it is never exhausted. -/

def finditerGo : Nat → List Char → List (List Char × List Char)
  | 0, _ => []
  | _, [] => []
  | fuel + 1, c :: t =>
    match matchAt (c :: t) with
    | some (m, id, rest) => (m, id) :: finditerGo fuel rest
    | none => finditerGo fuel t

/-- All non-overlapping matches of the share-link pattern in `s`,
leftmost first, as `(group0, group1)` pairs: `re.finditer(pattern, s)`. -/
def finditer (s : List Char) : List (List Char × List Char) :=
  finditerGo s.length s

/-- One pass of Python `str.replace(old, new)` for non-empty `old`
(fuel-based for structural recursion; `fuel = s.length` suffices since
`old` is non-empty). -/
def replaceCore (old new : List Char) : Nat → List Char → List Char
  | _, [] => []
  | 0, s => s
  | fuel + 1, c :: t =>
    match dropPre old (c :: t) with
    | some r => new ++ replaceCore old new fuel r
    | none => c :: replaceCore old new fuel t

/-- Python `str.replace(old, new)` (all occurrences).  The empty-`old`
case mirrors Python, which inserts `new` before every character and at
the end; the scraper only ever replaces non-empty matched URLs. -/
def pyReplace (s old new : List Char) : List Char :=
  match old with
  | [] => new ++ s.flatMap (fun c => c :: new)
  | _ :: _ => replaceCore old new s.length s

/-- The replacement,
`f"https://s3.tradingview.com/snapshots/{match_id[0].lower()}/{match_id}.png"`
(`tview_scraper.py` line 1202).  A match's group 1 is never empty
(`[a-zA-Z0-9]+`), so the nil case is unreachable. -/
def snapshotUrl : List Char → List Char
  | [] => "https://s3.tradingview.com/snapshots/".toList
  | c :: cs =>
    "https://s3.tradingview.com/snapshots/".toList
      ++ pyLowerChar c :: '/' :: (c :: cs) ++ ".png".toList

/-- The `for match in re.finditer(...)` loop body of
`convert_link_to_image_url` (lines 1199-1213): for each match, replace
the matched URL in the running output if it still occurs there (the
`found_match` flag and logging do not affect the returned value). -/
def processMatches : List (List Char × List Char) → List Char → List Char
  | [], out => out
  | (m, id) :: rest, out =>
    processMatches rest
      (if isSubstr m out then pyReplace out m (snapshotUrl id) else out)

/-- `TradingViewScraper.convert_link_to_image_url` (lines 1186-1222).
`if not input_string: return None`, then the finditer/replace loop;
the function always returns the accumulated output string. -/
def convert_link_to_image_url (input_string : List Char) : Option (List Char) :=
  if input_string = [] then none
  else some (processMatches (finditer input_string) input_string)

/-! ### Base64 and the inline image URL

`_convert_clipboard_to_image_url` (lines 1041-1059) encodes the
clipboard bytes with `base64.b64encode` and prepends the data-URL
header.  `b64decode` below is the standard base64 decoder (the
inverse direction is `base64.b64decode` from the Python standard
library, external to the repository). -/

/-- The standard base64 alphabet. -/
def b64Chars : List Char :=
  "ABCDEFGHIJKLMNOPQRSTUVWXYZabcdefghijklmnopqrstuvwxyz0123456789+/".toList

/-- The base64 digit for a 6-bit value. -/
def encChar (n : Nat) : Char := b64Chars.getD n '?'

/-- The 6-bit value of a base64 digit. -/
def decChar (c : Char) : Nat := b64Chars.indexOf c

/-- `base64.b64encode`: 3-byte groups to 4 digits, with `=` padding. -/
def b64encode : List Nat → List Char
  | [] => []
  | [a] => [encChar (a / 4), encChar (a % 4 * 16), '=', '=']
  | [a, b] => [encChar (a / 4), encChar (a % 4 * 16 + b / 16),
               encChar (b % 16 * 4), '=']
  | a :: b :: c :: rest =>
    encChar (a / 4) :: encChar (a % 4 * 16 + b / 16)
      :: encChar (b % 16 * 4 + c / 64) :: encChar (c % 64) :: b64encode rest

/-- Standard base64 decoding of well-formed input (4-digit groups,
with `=` padding on the final group). -/
def b64decode : List Char → List Nat
  | c1 :: c2 :: c3 :: c4 :: rest =>
    if c3 = '=' then [decChar c1 * 4 + decChar c2 / 16]
    else if c4 = '=' then
      [decChar c1 * 4 + decChar c2 / 16, decChar c2 % 16 * 16 + decChar c3 / 4]
    else
      (decChar c1 * 4 + decChar c2 / 16)
        :: (decChar c2 % 16 * 16 + decChar c3 / 4)
        :: (decChar c3 % 4 * 64 + decChar c4) :: b64decode rest
  | _ => []

/-- The data-URL header `data:image/png;base64,`. -/
def dataUrlHead : List Char := "data:image/png;base64,".toList

/-- `TradingViewScraper._convert_clipboard_to_image_url`
(lines 1041-1059): base64-encode the clipboard image bytes and wrap
them as `f"data:image/png;base64,{base64_encoded}"`.  Encoding a byte
string never fails, so the `except` branch (line 1057) is dead. -/
def convert_clipboard_to_image_url (image_data : List Nat) : List Char :=
  dataUrlHead ++ b64encode image_data

theorem encChar_ne_pad : ∀ v, v < 64 → encChar v ≠ '=' := by decide

theorem decChar_encChar : ∀ v, v < 64 → decChar (encChar v) = v := by decide

theorem b64_roundtrip :
    ∀ b : List Nat, (∀ x ∈ b, x < 256) → b64decode (b64encode b) = b
  | [], _ => by simp [b64encode, b64decode]
  | [a], h => by
    have ha : a < 256 := h a (by simp)
    have h1 := decChar_encChar (a / 4) (by omega)
    have h2 := decChar_encChar (a % 4 * 16) (by omega)
    simp only [b64encode, b64decode, h1, h2, if_true, List.cons.injEq, and_true]
    omega
  | [a, b], h => by
    have ha : a < 256 := h a (by simp)
    have hb : b < 256 := h b (by simp)
    have h1 := decChar_encChar (a / 4) (by omega)
    have h2 := decChar_encChar (a % 4 * 16 + b / 16) (by omega)
    have h3 := decChar_encChar (b % 16 * 4) (by omega)
    have hne := encChar_ne_pad (b % 16 * 4) (by omega)
    simp only [b64encode, b64decode, h1, h2, h3, if_neg hne, if_true,
      List.cons.injEq, and_true]
    omega
  | a :: b :: c :: rest, h => by
    have ha : a < 256 := h a (by simp)
    have hb : b < 256 := h b (by simp)
    have hc : c < 256 := h c (by simp)
    have h1 := decChar_encChar (a / 4) (by omega)
    have h2 := decChar_encChar (a % 4 * 16 + b / 16) (by omega)
    have h3 := decChar_encChar (b % 16 * 4 + c / 64) (by omega)
    have h4 := decChar_encChar (c % 64) (by omega)
    have hne3 := encChar_ne_pad (b % 16 * 4 + c / 64) (by omega)
    have hne4 := encChar_ne_pad (c % 64) (by omega)
    have ih := b64_roundtrip rest (fun x hx => h x (by simp [hx]))
    simp only [b64encode, b64decode, h1, h2, h3, h4, if_neg hne3, if_neg hne4, ih,
      List.cons.injEq, and_true]
    omega

/-! ### Clipboard server-error payloads

`_get_clipboard_content` (lines 789-822) runs `json.loads` on the text
clipboard content; a dict with `code` and `msg` keys and `success` equal
to `False` whose code is in the retryable set (or whose message
contains `Server Error`) raises `TradingViewClipboardServerError`,
which the outer handler (line 853) absorbs into a retry.  `json.loads`
is modelled for flat objects of atomic values without string escapes,
which covers every payload shape the classification inspects. -/

/-- Atomic JSON values of the error payloads. -/
inductive JAtom
  | jstr (s : List Char)
  | jint (n : Int)
  | jtrue
  | jfalse
  | jnull
deriving DecidableEq, Repr

/-- JSON whitespace. -/
def isJsonWs (c : Char) : Bool := c = ' ' || c = '\t' || c = '\n' || c = '\x0d'

/-- Skip JSON whitespace. -/
def skipWs (s : List Char) : List Char := s.dropWhile isJsonWs

/-- Parse a JSON string body (opening quote already consumed, no
escape sequences). -/
def parseJString (s : List Char) : Option (List Char × List Char) :=
  let body := s.takeWhile (fun c => c ≠ '"' && c ≠ '\\')
  match s.drop body.length with
  | '"' :: r => some (body, r)
  | _ => none

/-- Parse a non-empty digit run as a natural number. -/
def parseNat (s : List Char) : Option (Nat × List Char) :=
  let ds := s.takeWhile (fun c => 48 ≤ c.toNat && c.toNat ≤ 57)
  if ds = [] then none
  else some (ds.foldl (fun acc c => acc * 10 + (c.toNat - 48)) 0, s.drop ds.length)

/-- Parse one atomic JSON value. -/
def parseAtom (s : List Char) : Option (JAtom × List Char) :=
  match s with
  | '"' :: r => (parseJString r).map (fun p => (.jstr p.1, p.2))
  | _ =>
    match dropPre "true".toList s with
    | some r => some (.jtrue, r)
    | none =>
      match dropPre "false".toList s with
      | some r => some (.jfalse, r)
      | none =>
        match dropPre "null".toList s with
        | some r => some (.jnull, r)
        | none =>
          match s with
          | '-' :: r => (parseNat r).map (fun p => (.jint (-(p.1 : Int)), p.2))
          | _ => (parseNat s).map (fun p => (.jint (p.1 : Int), p.2))

/-- Parse the `"key": value` pairs of a flat object, up to and
including the closing brace, requiring the input to be exhausted
afterwards (as `json.loads` does).  Fuel bounds the recursion;
`s.length` suffices since every pair consumes characters. -/
def parsePairs : Nat → List Char → List (List Char × JAtom) →
    Option (List (List Char × JAtom))
  | 0, _, _ => none
  | fuel + 1, s, acc =>
    match skipWs s with
    | '"' :: r =>
      match parseJString r with
      | none => none
      | some (key, r1) =>
        match skipWs r1 with
        | ':' :: r2 =>
          match parseAtom (skipWs r2) with
          | none => none
          | some (v, r3) =>
            match skipWs r3 with
            | ',' :: r4 => parsePairs fuel r4 (acc ++ [(key, v)])
            | '}' :: r4 =>
              if skipWs r4 = [] then some (acc ++ [(key, v)]) else none
            | _ => none
        | _ => none
    | _ => none

/-- `json.loads` restricted to flat objects (sufficient for the
clipboard error payloads).  A non-object top level yields `none`,
which the classification treats the same way the source treats a
non-dict parse result. -/
def json_loads_flat (s : List Char) : Option (List (List Char × JAtom)) :=
  match skipWs s with
  | '{' :: r =>
    match skipWs r with
    | '}' :: r2 => if skipWs r2 = [] then some [] else none
    | _ => parsePairs s.length r []
  | _ => none

/-- `response.get(k)` with Python-dict later-duplicate-wins semantics. -/
def dictGet (k : List Char) (obj : List (List Char × JAtom)) : Option JAtom :=
  obj.foldl (fun acc p => if p.1 = k then some p.2 else acc) none

/-- The retryable code set (lines 800-809): string and integer forms. -/
def retryableCodes : List JAtom :=
  [.jstr "40001".toList, .jint 40001, .jstr "50000".toList, .jint 50000,
   .jstr "502".toList, .jint 502, .jstr "503".toList, .jint 503]

/-- Python `str()` of an atomic JSON value (applied to `error_msg`). -/
def pyStrOfAtom : JAtom → List Char
  | .jstr s => s
  | .jint n => (toString n).toList
  | .jtrue => "True".toList
  | .jfalse => "False".toList
  | .jnull => "None".toList

/-- The classification of lines 790-820: content parses as a dict with
`code` and `msg` keys and `success` exactly `False`, and the code is
retryable or the message contains `Server Error`.  `true` means
`TradingViewClipboardServerError` is raised (and then absorbed into a
retry by the handler at line 853). -/
def isRetryableServerErrorPayload (content : List Char) : Bool :=
  match json_loads_flat content with
  | none => false
  | some response =>
    match dictGet "code".toList response, dictGet "msg".toList response with
    | some code, some msg =>
      if dictGet "success".toList response = some .jfalse then
        decide (code ∈ retryableCodes)
          || isSubstr "Server Error".toList (pyStrOfAtom msg)
      else false
    | _, _ => false

/-! ### The clipboard capture loops

The two retry loops (`_get_clipboard_content`, lines 707-873, and
`_trigger_screenshot_and_get_link`, lines 616-705) interact with the
browser through the driver; each attempt's external outcomes are given
by oracles indexed by the attempt number.  The inner timed polling
loop of an attempt is abstracted to its net effect: the first valid
clipboard value the attempt observes, or `none` when every poll and
the final read yield empty/invalid content (read errors inside the
polling are caught by the source itself, lines 659-660, 671-673 and
767-768, 781-785). -/

/-- `MAX_CLIPBOARD_ATTEMPTS` (line 72). -/
def MAX_CLIPBOARD_ATTEMPTS : Nat := 5

/-- Truthiness of `content and content.strip()`. -/
def truthyText (t : List Char) : Bool := !t.isEmpty && !(pyStrip t).isEmpty

/-- Per-attempt external outcomes for `_get_clipboard_content`.
`sendWdFail i`: `_send_save_shortcut` raises `WebDriverException`
(absorbed by the handler at line 857).  `image i`: the bytes
`_read_image_from_clipboard` returns (`none` covers no image, invalid
format, and read errors, which that helper catches itself).
`text i`: the text clipboard value the attempt observes.
`altWorked i`: whether `_try_alternative_shortcuts` returned `True`.
`altText i`: the clipboard value read after the alternative shortcut
(read errors are caught at lines 848-851 and behave like `none`). -/
structure ClipOracles where
  sendWdFail : Nat → Bool
  image : Nat → Option (List Nat)
  text : Nat → Option (List Char)
  altWorked : Nat → Bool
  altText : Nat → Option (List Char)

/-- Result of `_get_clipboard_content`, instrumented with the number of
attempts performed.  `exhausted` is the terminal
`TradingViewScraperError` raise at line 871. -/
inductive ClipResult
  | content (s : List Char) (attempts : Nat)
  | exhausted (attempts : Nat)
deriving DecidableEq, Repr

/-- The alternative-shortcut tail of a traditional attempt
(lines 829-851): run only when the attempt's text content was empty;
on alternative content the function returns it (without server-error
classification), otherwise the attempt falls through to `next`. -/
def clipAltStep (o : ClipOracles) (i : Nat) (next : ClipResult) : ClipResult :=
  if o.altWorked i then
    match o.altText i with
    | some a => if truthyText a then .content a (i + 1) else next
    | none => next
  else next

/-- The `for attempt in range(MAX_CLIPBOARD_ATTEMPTS)` loop of
`_get_clipboard_content` (lines 713-868), starting at attempt `i` with
`fuel` attempts remaining. -/
def clipAttempts (use_save_shortcut : Bool) (o : ClipOracles) :
    Nat → Nat → ClipResult
  | i, 0 => .exhausted i
  | i, fuel + 1 =>
    if o.sendWdFail i then clipAttempts use_save_shortcut o (i + 1) fuel
    else if use_save_shortcut then
      match o.image i with
      | some image_data =>
        .content (convert_clipboard_to_image_url image_data) (i + 1)
      | none => clipAttempts use_save_shortcut o (i + 1) fuel
    else
      match o.text i with
      | some t =>
        if truthyText t then
          if isRetryableServerErrorPayload t then
            clipAttempts use_save_shortcut o (i + 1) fuel
          else .content t (i + 1)
        else clipAltStep o i (clipAttempts use_save_shortcut o (i + 1) fuel)
      | none => clipAltStep o i (clipAttempts use_save_shortcut o (i + 1) fuel)

/-- `TradingViewScraper._get_clipboard_content` (lines 707-873). -/
def get_clipboard_content (use_save_shortcut : Bool) (o : ClipOracles) :
    ClipResult :=
  clipAttempts use_save_shortcut o 0 MAX_CLIPBOARD_ATTEMPTS

/-- What an attempt of `_trigger_screenshot_and_get_link` observes from
the clipboard: a `WebDriverException` while reading (caught by the
source at lines 659-660 and 671-673), or the text value. -/
inductive ReadOutcome
  | wdErr
  | text (t : Option (List Char))
deriving DecidableEq, Repr

/-- Per-attempt external outcomes for
`_trigger_screenshot_and_get_link`.  `trigWdFail i`: the
`ActionChains` screenshot trigger (line 631) raises
`WebDriverException`, reaching the handler at line 687. -/
structure TrigOracles where
  trigWdFail : Nat → Bool
  read : Nat → ReadOutcome

/-- Result of `_trigger_screenshot_and_get_link`, instrumented with the
number of attempts performed and whether the loop was aborted by the
`break` at line 692. -/
structure TrigResult where
  result : Option (List Char)
  attempts : Nat
  aborted : Bool
deriving DecidableEq, Repr

/-- The retry loop of `_trigger_screenshot_and_get_link`
(lines 624-699). -/
def trigAttempts (o : TrigOracles) : Nat → Nat → TrigResult
  | i, 0 => ⟨none, i, false⟩
  | i, fuel + 1 =>
    if o.trigWdFail i then ⟨none, i + 1, true⟩
    else
      match o.read i with
      | .wdErr => trigAttempts o (i + 1) fuel
      | .text none => trigAttempts o (i + 1) fuel
      | .text (some t) =>
        if truthyText t then ⟨some (pyStrip t), i + 1, false⟩
        else trigAttempts o (i + 1) fuel

/-- `TradingViewScraper._trigger_screenshot_and_get_link`
(lines 616-705); on exhaustion and on abort it returns `None`. -/
def trigger_screenshot_and_get_link (o : TrigOracles) : TrigResult :=
  trigAttempts o 0 MAX_CLIPBOARD_ATTEMPTS

/-! ### Session release (`close`, lines 1224-1245) -/

/-- How `self.driver.quit()` terminates. -/
inductive QuitOutcome
  | success
  | webDriverExc        -- WebDriverException
  | noSuchWindowExc     -- NoSuchWindowException
  | connectionExc       -- ConnectionError
  | osExc               -- OSError
  | keyboardInterruptExc
  | otherExc            -- any other Exception
deriving DecidableEq, Repr

/-- Observable effect of one `close()` call: the value of
`self.driver is not None` afterwards, whether `quit()` was invoked,
and whether `close()` itself raised. -/
structure CloseStep where
  driverAfter : Bool
  quitCalled : Bool
  raised : Bool
deriving DecidableEq, Repr

/-- `TradingViewScraper.close` (lines 1224-1245).  All listed handlers
swallow the exception; the first handler (`WebDriverException`,
`NoSuchWindowException`, lines 1232-1235) does not reset
`self.driver`, the others do. -/
def close (driverPresent : Bool) (quit : QuitOutcome) : CloseStep :=
  if driverPresent then
    match quit with
    | .success => ⟨false, true, false⟩
    | .webDriverExc => ⟨true, true, false⟩
    | .noSuchWindowExc => ⟨true, true, false⟩
    | .connectionExc => ⟨false, true, false⟩
    | .osExc => ⟨false, true, false⟩
    | .keyboardInterruptExc => ⟨false, true, false⟩
    | .otherExc => ⟨false, true, false⟩
  else ⟨false, false, false⟩

/-! ### The readiness prober (`_navigate_and_wait`, lines 448-614)

Discrete-time model, one tick = 0.1 s (the polling interval of every
loop).  Constants, in ticks: `MAX_CHART_WAIT_TIME` = 6 s = 60,
`max_element_wait` = 2 s = 20, `max_loading_check` = 1.5 s = 15,
`max_data_wait` = 2 s = 20, the fallback `time.sleep(0.5)` = 5.
The initial `driver.get` is assumed done; the model covers the
waiting phase that follows it. -/

/-- `MAX_CHART_WAIT_TIME` (line 75) in ticks of 0.1 s. -/
def MAX_CHART_WAIT_TICKS : Nat := 60

/-- `max_element_wait = 2` (line 485) in ticks. -/
def MAX_ELEMENT_WAIT_TICKS : Nat := 20

/-- `max_loading_check = 1.5` (line 534) in ticks. -/
def MAX_LOADING_CHECK_TICKS : Nat := 15

/-- `max_data_wait = 2` (line 559) in ticks. -/
def MAX_DATA_WAIT_TICKS : Nat := 20

/-- `time.sleep(0.5)` of the fallback branch (line 608) in ticks. -/
def FALLBACK_SLEEP_TICKS : Nat := 5

/-- One round of `find_elements` queries: the query either throws
(caught by the `except Exception: pass` of each loop) or yields the
element counts observed. -/
inductive QueryOutcome
  | throws
  | counts (canvas chartWidgets price loading : Nat)
deriving DecidableEq, Repr

/-- Readiness test of the element-poll loop (lines 488-516):
`(canvas > 0 or widgets > 0) and price > 0`; a throwing query is not
ready. -/
def elemReady : QueryOutcome → Bool
  | .throws => false
  | .counts canvas widgets price _ => (canvas > 0 || widgets > 0) && price > 0

/-- Exit test of the loading-indicator loop (lines 536-548):
`not loading_indicators`. -/
def loadingClear : QueryOutcome → Bool
  | .throws => false
  | .counts _ _ _ loading => loading = 0

/-- Readiness test of the traditional data loop (lines 562-590):
`price > 0 and canvas > 0 and not loading_indicators`. -/
def dataReady : QueryOutcome → Bool
  | .throws => false
  | .counts canvas _ price loading => price > 0 && canvas > 0 && loading = 0

/-- A bounded polling loop: query at each tick, stop at the first tick
whose query satisfies `ready` (before `time.sleep`), otherwise run out
the bound.  Returns the elapsed ticks. -/
def pollTicks (ready : QueryOutcome → Bool) (q : Nat → QueryOutcome) :
    Nat → Nat → Nat
  | i, 0 => i
  | i, fuel + 1 => if ready (q i) then i else pollTicks ready q (i + 1) fuel

/-- Outcome of the initial `self.wait.until(EC.any_of(...))`
(lines 464-479): infrastructure found after `t` ticks (`t` is at most
`MAX_CHART_WAIT_TICKS` by construction of `WebDriverWait`), a
`TimeoutException` after the full bound, or a `WebDriverException`
propagating out of the wait. -/
inductive InfraOutcome
  | found (t : Nat)
  | timedOut
  | wdError
deriving DecidableEq, Repr

/-- Result of the probing phase: ticks elapsed and whether
`_navigate_and_wait` raised (`TradingViewScraperError` via the handler
at lines 612-614). -/
structure ProbeResult where
  elapsed : Nat
  raised : Bool
deriving DecidableEq, Repr

/-- The waiting phase of `_navigate_and_wait` after `driver.get`
(lines 456-610).  On `TimeoutException` from the infrastructure wait,
the fallback branch (lines 602-610) sleeps 0.5 s and returns; on
success it runs the element-poll loop and then the strategy-specific
gate loop.  A `WebDriverException` from the wait escapes the inner
`except TimeoutException` and is re-raised as
`TradingViewScraperError` by the outer handler. -/
def navigate_probe (use_save_shortcut : Bool) (infra : InfraOutcome)
    (elemQ gateQ : Nat → QueryOutcome) : ProbeResult :=
  match infra with
  | .wdError => ⟨0, true⟩
  | .timedOut => ⟨MAX_CHART_WAIT_TICKS + FALLBACK_SLEEP_TICKS, false⟩
  | .found t =>
    let e1 := pollTicks elemReady elemQ 0 MAX_ELEMENT_WAIT_TICKS
    let e2 :=
      if use_save_shortcut then
        pollTicks loadingClear gateQ 0 MAX_LOADING_CHECK_TICKS
      else
        pollTicks dataReady gateQ 0 MAX_DATA_WAIT_TICKS
    ⟨t + e1 + e2, false⟩

/-! ### Orchestration

`get_chart_image_url` (lines 1061-1131), `get_screenshot_link`
(lines 1133-1184) and the MCP tool `get_tradingview_chart_image`
(`main.py`, lines 69-112).  Exceptions are modelled by the classes the
code distinguishes; all of them are Python `Exception` subclasses. -/

/-- Exception classes distinguished by the orchestration layers. -/
inductive PyExc
  | scraperError     -- TradingViewScraperError
  | valueError       -- ValueError
  | webDriverError   -- WebDriverException
  | timeoutError     -- TimeoutException
  | genericError     -- any other Exception
deriving DecidableEq, Repr

/-- `TradingViewScraper.get_chart_image_url` (lines 1061-1131).
`navExc`: exception raised by the auth/navigation phase, if any
(`_navigate_and_wait` raises `TradingViewScraperError`; any other
exception class is also covered).  `clipRes`: result of
`_get_clipboard_content`.  The whole body sits in a
`try ... except TradingViewScraperError ... except Exception` pair
(lines 1126-1131) that converts any fault to `None`; only the
driver/argument preconditions (lines 1075-1080) raise. -/
def get_chart_image_url (driverPresent : Bool) (ticker interval : List Char)
    (navExc : Option PyExc) (clipRes : Except PyExc (List Char)) :
    Except PyExc (Option (List Char)) :=
  if !driverPresent then .error .scraperError
  else if ticker = [] ∨ interval = [] then .error .valueError
  else
    match navExc with
    | some _ => .ok none
    | none =>
      match clipRes with
      | .error _ => .ok none
      | .ok image_url => .ok (some image_url)

/-- Observable browser-interaction events of one tool request. -/
inductive Ev
  | acquireSession   -- __enter__ / _setup_driver
  | applyAuth        -- _set_auth_cookies_optimized (navigates, sets cookies)
  | navigateChart    -- _navigate_and_wait
  | capture          -- _trigger_screenshot_and_get_link
  | releaseSession   -- __exit__ / close
deriving DecidableEq, Repr

/-- `TradingViewScraper.get_screenshot_link` (lines 1133-1184),
returning the result (or raised exception) together with the browser
events it performed.  The driver check (line 1147) precedes the
ticker/interval validation (line 1151); auth is best-effort (its
result only affects logging); a navigation fault is re-raised as
`TradingViewScraperError`. -/
def get_screenshot_link (driverPresent : Bool) (ticker interval : List Char)
    (navRaises : Bool) (oG : TrigOracles) :
    Except PyExc (Option (List Char)) × List Ev :=
  if !driverPresent then (.error .scraperError, [])
  else if ticker = [] ∨ interval = [] then (.error .valueError, [])
  else if navRaises then (.error .scraperError, [.applyAuth, .navigateChart])
  else
    ((.ok (trigger_screenshot_and_get_link oG).result),
      [.applyAuth, .navigateChart, .capture])

/-- Result of the MCP tool `get_tradingview_chart_image`
(`main.py`, lines 69-112): the returned URL, or the re-raised
`Exception(...)` of the three handlers (lines 104-112). -/
inductive ToolOutcome
  | ok (url : List Char)
  | inputError       -- Exception(f"Input Error: ...") from ValueError
  | scraperError     -- Exception(f"Scraper Error: ...")
  | unexpectedError  -- Exception(f"Unexpected error: ...")
deriving DecidableEq, Repr

/-- The MCP tool `get_tradingview_chart_image` (`main.py`,
lines 69-112).  The `with TradingViewScraper(...)` statement acquires
the session (`__enter__` → `_setup_driver`) before the body runs and
releases it (`__exit__` → `close`) on every exit path; the body calls
`get_screenshot_link` and then `convert_link_to_image_url`. -/
def get_tradingview_chart_image (ticker interval : List Char)
    (navRaises : Bool) (oG : TrigOracles) : ToolOutcome × List Ev :=
  let body := get_screenshot_link true ticker interval navRaises oG
  let trace := Ev.acquireSession :: body.2 ++ [Ev.releaseSession]
  match body.1 with
  | .error .valueError => (.inputError, trace)
  | .error .scraperError => (.scraperError, trace)
  | .error _ => (.unexpectedError, trace)
  | .ok none => (.scraperError, trace)
  | .ok (some link) =>
    match convert_link_to_image_url link with
    | none => (.scraperError, trace)
    | some image_url => (.ok image_url, trace)

/-! ## Claims -/

/-! ### C4 — image bytes to data URL -/

/-- C4: for every non-empty byte sequence `b`,
`_convert_clipboard_to_image_url(b)` returns a string that starts with
`data:image/png;base64,` and whose suffix after that header
base64-decodes to exactly `b`. -/
theorem image_bytes_data_url_roundtrip (b : List Nat) (hne : b ≠ [])
    (hb : ∀ x ∈ b, x < 256) :
    dataUrlHead <+: convert_clipboard_to_image_url b
      ∧ b64decode ((convert_clipboard_to_image_url b).drop dataUrlHead.length)
          = b := by
  refine ⟨⟨b64encode b, rfl⟩, ?_⟩
  rw [convert_clipboard_to_image_url, List.drop_left]
  exact b64_roundtrip b hb

/-- Witness for C4 at the PNG signature bytes. -/
theorem image_bytes_data_url_roundtrip_witness :
    ([137, 80, 78, 71, 13, 10, 26, 10] : List Nat) ≠ []
    ∧ (∀ x ∈ ([137, 80, 78, 71, 13, 10, 26, 10] : List Nat), x < 256)
    ∧ (dataUrlHead <+: convert_clipboard_to_image_url [137, 80, 78, 71, 13, 10, 26, 10]
        ∧ b64decode ((convert_clipboard_to_image_url
            [137, 80, 78, 71, 13, 10, 26, 10]).drop dataUrlHead.length)
          = [137, 80, 78, 71, 13, 10, 26, 10]) :=
  ⟨by decide, by decide,
    image_bytes_data_url_roundtrip _ (by decide) (by decide)⟩

/-! ### C6 — session release -/

/-- C6 (code bug evidence): when `driver.quit()` raises
`WebDriverException`, `close()` swallows the exception but — unlike its
sibling handlers, whose bodies end with `self.driver = None  # Mark as
closed even if quit failed` — leaves `self.driver` set, so a second
`close()` interacts with the driver again. -/
theorem close_webdriver_error_keeps_handle :
    (close true .webDriverExc).raised = false
    ∧ (close true .webDriverExc).driverAfter = true
    ∧ (close (close true .webDriverExc).driverAfter .success).quitCalled = true
    ∧ (close false .success).quitCalled = false := by
  decide

/-! ### C10 — `get_chart_image_url` never leaks a fault -/

/-- C10: with an initialized driver and non-empty ticker and interval,
`get_chart_image_url` converts every fault of the auth/navigation/
clipboard phases into an `Optional[str]` return value; no exception
escapes. -/
theorem get_chart_image_url_never_raises (ticker interval : List Char)
    (ht : ticker ≠ []) (hi : interval ≠ [])
    (navExc : Option PyExc) (clipRes : Except PyExc (List Char)) :
    ∃ r, get_chart_image_url true ticker interval navExc clipRes = .ok r := by
  unfold get_chart_image_url
  rw [if_neg (by simp), if_neg (by simp [ht, hi])]
  match navExc with
  | some _ => exact ⟨none, rfl⟩
  | none =>
    match clipRes with
    | .error _ => exact ⟨none, rfl⟩
    | .ok v => exact ⟨some v, rfl⟩

/-- Witness for C10 at a concrete faulting run. -/
theorem get_chart_image_url_never_raises_witness :
    ("T".toList ≠ [] ∧ "15".toList ≠ [])
    ∧ (∃ r, get_chart_image_url true "T".toList "15".toList
        (some .scraperError) (.error .scraperError) = .ok r) :=
  ⟨⟨by decide, by decide⟩,
    get_chart_image_url_never_raises _ _ (by decide) (by decide) _ _⟩

/-! ### Retry-loop lemmas -/

/-- A text clipboard value that yields no usable content
(`None`, empty, or whitespace-only). -/
def emptyTextVal : Option (List Char) → Bool
  | none => true
  | some t => !(truthyText t)

/-- A read outcome after which the trigger loop goes on to the next
attempt (read error, `None`, or empty text). -/
def trigContinues : ReadOutcome → Bool
  | .wdErr => true
  | .text none => true
  | .text (some t) => !(truthyText t)

/-- A read outcome that is genuinely empty/invalid content (not a
WebDriver error). -/
def emptyRead : ReadOutcome → Bool
  | .wdErr => false
  | .text none => true
  | .text (some t) => !(truthyText t)

theorem emptyRead_continues {r : ReadOutcome} (h : emptyRead r = true) :
    trigContinues r = true := by
  cases r with
  | wdErr => simp [emptyRead] at h
  | text t => cases t <;> simpa [emptyRead, trigContinues] using h

theorem clipAltStep_empty {o : ClipOracles} {i : Nat} {next : ClipResult}
    (h : emptyTextVal (o.altText i) = true) : clipAltStep o i next = next := by
  unfold clipAltStep
  cases haw : o.altWorked i
  · simp
  · cases hat : o.altText i with
    | none => simp
    | some a =>
      rw [hat] at h
      simp only [emptyTextVal, Bool.not_eq_true'] at h
      simp [h]

theorem clipAttempts_save_exhaust (o : ClipOracles)
    (hs : ∀ j, o.sendWdFail j = false) (hi : ∀ j, o.image j = none) :
    ∀ fuel i, clipAttempts true o i fuel = .exhausted (i + fuel) := by
  intro fuel
  induction fuel with
  | zero => intro i; simp [clipAttempts]
  | succ f ih =>
    intro i
    simp only [clipAttempts, hs i, hi i, Bool.false_eq_true, if_false, if_true,
      ih (i + 1)]
    congr 1
    omega

theorem clipAttempts_save_success (o : ClipOracles) (bs : List Nat)
    (hs : ∀ j, o.sendWdFail j = false) :
    ∀ k i fuel, k < fuel → (∀ j, j < k → o.image (i + j) = none) →
      o.image (i + k) = some bs →
      clipAttempts true o i fuel
        = .content (convert_clipboard_to_image_url bs) (i + k + 1) := by
  intro k
  induction k with
  | zero =>
    intro i fuel hf _ hk
    match fuel, hf with
    | f + 1, _ =>
      rw [Nat.add_zero] at hk
      simp [clipAttempts, hs i, hk]
  | succ k ih =>
    intro i fuel hf he hk
    match fuel, hf with
    | f + 1, _ =>
      have h0 : o.image i = none := by simpa using he 0 (by omega)
      simp only [clipAttempts, hs i, h0, Bool.false_eq_true, if_false, if_true]
      rw [ih (i + 1) f (by omega)
        (fun j hj => by rw [show i + 1 + j = i + (j + 1) by omega]; exact he (j + 1) (by omega))
        (by rw [show i + 1 + k = i + (k + 1) by omega]; exact hk)]
      congr 1
      omega

theorem clipAttempts_trad_exhaust (o : ClipOracles)
    (hs : ∀ j, o.sendWdFail j = false)
    (ht : ∀ j, emptyTextVal (o.text j) = true)
    (ha : ∀ j, emptyTextVal (o.altText j) = true) :
    ∀ fuel i, clipAttempts false o i fuel = .exhausted (i + fuel) := by
  intro fuel
  induction fuel with
  | zero => intro i; simp [clipAttempts]
  | succ f ih =>
    intro i
    have step : clipAttempts false o i (f + 1) = clipAttempts false o (i + 1) f := by
      simp only [clipAttempts, hs i, Bool.false_eq_true, if_false]
      cases hti : o.text i with
      | none => exact clipAltStep_empty (ha i)
      | some t =>
        have := ht i
        rw [hti] at this
        simp only [emptyTextVal, Bool.not_eq_true'] at this
        simp only [this, Bool.false_eq_true, if_false]
        exact clipAltStep_empty (ha i)
    rw [step, ih (i + 1)]
    congr 1
    omega

theorem clipAttempts_trad_success (o : ClipOracles) (v : List Char)
    (hs : ∀ j, o.sendWdFail j = false)
    (hv1 : truthyText v = true) (hv2 : isRetryableServerErrorPayload v = false) :
    ∀ k i fuel, k < fuel →
      (∀ j, j < k → emptyTextVal (o.text (i + j)) = true) →
      (∀ j, j < k → emptyTextVal (o.altText (i + j)) = true) →
      o.text (i + k) = some v →
      clipAttempts false o i fuel = .content v (i + k + 1) := by
  intro k
  induction k with
  | zero =>
    intro i fuel hf _ _ hk
    match fuel, hf with
    | f + 1, _ =>
      rw [Nat.add_zero] at hk
      simp [clipAttempts, hs i, hk, hv1, hv2]
  | succ k ih =>
    intro i fuel hf he hea hk
    match fuel, hf with
    | f + 1, _ =>
      have step : clipAttempts false o i (f + 1) = clipAttempts false o (i + 1) f := by
        simp only [clipAttempts, hs i, Bool.false_eq_true, if_false]
        cases hti : o.text i with
        | none => exact clipAltStep_empty (by simpa using hea 0 (by omega))
        | some t =>
          have h0 := he 0 (by omega)
          rw [Nat.add_zero, hti] at h0
          simp only [emptyTextVal, Bool.not_eq_true'] at h0
          simp only [h0, Bool.false_eq_true, if_false]
          exact clipAltStep_empty (by simpa using hea 0 (by omega))
      rw [step, ih (i + 1) f (by omega)
        (fun j hj => by rw [show i + 1 + j = i + (j + 1) by omega]; exact he (j + 1) (by omega))
        (fun j hj => by rw [show i + 1 + j = i + (j + 1) by omega]; exact hea (j + 1) (by omega))
        (by rw [show i + 1 + k = i + (k + 1) by omega]; exact hk)]
      congr 1
      omega

theorem trigAttempts_exhaust (o : TrigOracles)
    (h1 : ∀ j, o.trigWdFail j = false)
    (h2 : ∀ j, trigContinues (o.read j) = true) :
    ∀ fuel i, trigAttempts o i fuel = ⟨none, i + fuel, false⟩ := by
  intro fuel
  induction fuel with
  | zero => intro i; simp [trigAttempts]
  | succ f ih =>
    intro i
    have step : trigAttempts o i (f + 1) = trigAttempts o (i + 1) f := by
      simp only [trigAttempts, h1 i, Bool.false_eq_true, if_false]
      cases hr : o.read i with
      | wdErr => rfl
      | text t =>
        cases t with
        | none => rfl
        | some v =>
          have := h2 i
          rw [hr] at this
          simp only [trigContinues, Bool.not_eq_true'] at this
          simp [this]
    rw [step, ih (i + 1)]
    simp only [TrigResult.mk.injEq, and_true, true_and]
    omega

theorem trigAttempts_success (o : TrigOracles) (v : List Char)
    (hv : truthyText v = true) :
    ∀ k i fuel, k < fuel →
      (∀ j, j < k → o.trigWdFail (i + j) = false
        ∧ trigContinues (o.read (i + j)) = true) →
      o.trigWdFail (i + k) = false → o.read (i + k) = .text (some v) →
      trigAttempts o i fuel = ⟨some (pyStrip v), i + k + 1, false⟩ := by
  intro k
  induction k with
  | zero =>
    intro i fuel hf _ hw hr
    match fuel, hf with
    | f + 1, _ =>
      rw [Nat.add_zero] at hw hr
      simp [trigAttempts, hw, hr, hv]
  | succ k ih =>
    intro i fuel hf he hw hr
    match fuel, hf with
    | f + 1, _ =>
      obtain ⟨hw0, hc0⟩ := he 0 (by omega)
      rw [Nat.add_zero] at hw0 hc0
      have step : trigAttempts o i (f + 1) = trigAttempts o (i + 1) f := by
        simp only [trigAttempts, hw0, Bool.false_eq_true, if_false]
        cases hr0 : o.read i with
        | wdErr => rfl
        | text t =>
          cases t with
          | none => rfl
          | some u =>
            rw [hr0] at hc0
            simp only [trigContinues, Bool.not_eq_true'] at hc0
            simp [hc0]
      rw [step, ih (i + 1) f (by omega)
        (fun j hj => by rw [show i + 1 + j = i + (j + 1) by omega]; exact he (j + 1) (by omega))
        (by rw [show i + 1 + k = i + (k + 1) by omega]; exact hw)
        (by rw [show i + 1 + k = i + (k + 1) by omega]; exact hr)]
      simp only [TrigResult.mk.injEq, and_true, true_and]
      omega

theorem trigAttempts_abort (o : TrigOracles) :
    ∀ m i fuel, m < fuel →
      (∀ j, j < m → o.trigWdFail (i + j) = false
        ∧ trigContinues (o.read (i + j)) = true) →
      o.trigWdFail (i + m) = true →
      trigAttempts o i fuel = ⟨none, i + m + 1, true⟩ := by
  intro m
  induction m with
  | zero =>
    intro i fuel hf _ hw
    match fuel, hf with
    | f + 1, _ =>
      rw [Nat.add_zero] at hw
      simp [trigAttempts, hw]
  | succ m ih =>
    intro i fuel hf he hw
    match fuel, hf with
    | f + 1, _ =>
      obtain ⟨hw0, hc0⟩ := he 0 (by omega)
      rw [Nat.add_zero] at hw0 hc0
      have step : trigAttempts o i (f + 1) = trigAttempts o (i + 1) f := by
        simp only [trigAttempts, hw0, Bool.false_eq_true, if_false]
        cases hr0 : o.read i with
        | wdErr => rfl
        | text t =>
          cases t with
          | none => rfl
          | some u =>
            rw [hr0] at hc0
            simp only [trigContinues, Bool.not_eq_true'] at hc0
            simp [hc0]
      rw [step, ih (i + 1) f (by omega)
        (fun j hj => by rw [show i + 1 + j = i + (j + 1) by omega]; exact he (j + 1) (by omega))
        (by rw [show i + 1 + m = i + (m + 1) by omega]; exact hw)]
      simp only [TrigResult.mk.injEq, and_true, true_and]
      omega

/-! ### C3 — retry bound of the capture strategies -/

/-- C3: when the clipboard yields empty/invalid content on every poll
of every attempt, each capture loop performs exactly
`MAX_CLIPBOARD_ATTEMPTS` attempts and then fails with the exhausted
outcome (`TradingViewScraperError` from `_get_clipboard_content`,
`None` from `_trigger_screenshot_and_get_link`); when a valid payload
appears on attempt `k+1` after `k` empty attempts, each loop succeeds
using exactly `k+1` attempts. -/
theorem capture_retry_bound
    (k : Nat) (hk : k < MAX_CLIPBOARD_ATTEMPTS)
    (bs : List Nat) (v : List Char)
    (hv1 : truthyText v = true) (hv2 : isRetryableServerErrorPayload v = false)
    (oS oT : ClipOracles) (oG : TrigOracles)
    (hS0 : ∀ j, oS.sendWdFail j = false)
    (hS1 : ∀ j, j < k → oS.image j = none) (hS2 : oS.image k = some bs)
    (hT0 : ∀ j, oT.sendWdFail j = false)
    (hT1 : ∀ j, j < k → emptyTextVal (oT.text j) = true)
    (hT2 : ∀ j, j < k → emptyTextVal (oT.altText j) = true)
    (hT3 : oT.text k = some v)
    (hG0 : ∀ j, oG.trigWdFail j = false)
    (hG1 : ∀ j, j < k → emptyRead (oG.read j) = true)
    (hG2 : oG.read k = .text (some v)) :
    get_clipboard_content true oS
        = .content (convert_clipboard_to_image_url bs) (k + 1)
    ∧ get_clipboard_content false oT = .content v (k + 1)
    ∧ trigger_screenshot_and_get_link oG = ⟨some (pyStrip v), k + 1, false⟩
    ∧ (∀ o : ClipOracles, (∀ j, o.sendWdFail j = false) →
        (∀ j, o.image j = none) →
        get_clipboard_content true o = .exhausted MAX_CLIPBOARD_ATTEMPTS)
    ∧ (∀ o : ClipOracles, (∀ j, o.sendWdFail j = false) →
        (∀ j, emptyTextVal (o.text j) = true) →
        (∀ j, emptyTextVal (o.altText j) = true) →
        get_clipboard_content false o = .exhausted MAX_CLIPBOARD_ATTEMPTS)
    ∧ (∀ o : TrigOracles, (∀ j, o.trigWdFail j = false) →
        (∀ j, emptyRead (o.read j) = true) →
        trigger_screenshot_and_get_link o
          = ⟨none, MAX_CLIPBOARD_ATTEMPTS, false⟩) := by
  refine ⟨?_, ?_, ?_, ?_, ?_, ?_⟩
  · have := clipAttempts_save_success oS bs hS0 k 0 MAX_CLIPBOARD_ATTEMPTS hk
      (fun j hj => by simpa using hS1 j hj) (by simpa using hS2)
    simpa [get_clipboard_content] using this
  · have := clipAttempts_trad_success oT v hT0 hv1 hv2 k 0 MAX_CLIPBOARD_ATTEMPTS hk
      (fun j hj => by simpa using hT1 j hj) (fun j hj => by simpa using hT2 j hj)
      (by simpa using hT3)
    simpa [get_clipboard_content] using this
  · have := trigAttempts_success oG v hv1 k 0 MAX_CLIPBOARD_ATTEMPTS hk
      (fun j hj => by
        refine ⟨by simpa using hG0 j, ?_⟩
        simpa using emptyRead_continues (hG1 j hj))
      (by simpa using hG0 k) (by simpa using hG2)
    simpa [trigger_screenshot_and_get_link] using this
  · intro o h1 h2
    have := clipAttempts_save_exhaust o h1 h2 MAX_CLIPBOARD_ATTEMPTS 0
    simpa [get_clipboard_content] using this
  · intro o h1 h2 h3
    have := clipAttempts_trad_exhaust o h1 h2 h3 MAX_CLIPBOARD_ATTEMPTS 0
    simpa [get_clipboard_content] using this
  · intro o h1 h2
    have := trigAttempts_exhaust o h1 (fun j => emptyRead_continues (h2 j))
      MAX_CLIPBOARD_ATTEMPTS 0
    simpa [trigger_screenshot_and_get_link] using this

/-- Image-oracle for the C3 witness: image bytes on attempt 3. -/
def oSaveW : ClipOracles :=
  ⟨fun _ => false, fun i => if i = 2 then some [1, 2, 3] else none,
    fun _ => none, fun _ => false, fun _ => none⟩

/-- Text-oracle for the C3 witness: a link on attempt 3. -/
def oTradW : ClipOracles :=
  ⟨fun _ => false, fun _ => none,
    fun i => if i = 2 then some "https://www.tradingview.com/x/AbCd".toList
      else none,
    fun _ => false, fun _ => none⟩

/-- Trigger-oracle for the C3 witness: a link on attempt 3. -/
def oTrigW : TrigOracles :=
  ⟨fun _ => false,
    fun i => if i = 2 then .text (some "https://www.tradingview.com/x/AbCd".toList)
      else .text none⟩

/-- Witness for C3 at `k = 2`. -/
theorem capture_retry_bound_witness :
    2 < MAX_CLIPBOARD_ATTEMPTS
    ∧ truthyText "https://www.tradingview.com/x/AbCd".toList = true
    ∧ isRetryableServerErrorPayload "https://www.tradingview.com/x/AbCd".toList
        = false
    ∧ get_clipboard_content true oSaveW
        = .content (convert_clipboard_to_image_url [1, 2, 3]) 3
    ∧ get_clipboard_content false oTradW
        = .content "https://www.tradingview.com/x/AbCd".toList 3
    ∧ trigger_screenshot_and_get_link oTrigW
        = ⟨some (pyStrip "https://www.tradingview.com/x/AbCd".toList), 3, false⟩ := by
  have h := capture_retry_bound 2 (by decide) [1, 2, 3]
    "https://www.tradingview.com/x/AbCd".toList (by decide) (by decide)
    oSaveW oTradW oTrigW
    (fun _ => rfl) (by decide) rfl
    (fun _ => rfl) (by decide) (by decide) rfl
    (fun _ => rfl) (by decide) rfl
  exact ⟨by decide, by decide, by decide, h.1, h.2.1, h.2.2.1⟩

/-! ### C2 — server-error classification of clipboard payloads -/

/-- The payload `{"success": false, "code": 50000, "msg": "Server Error"}`. -/
def payloadServerError : List Char :=
  "\x7b\"success\": false, \"code\": 50000, \"msg\": \"Server Error\"\x7d".toList

/-- The payload `{"success": false, "code": 40099, "msg": "Bad Input"}`. -/
def payloadBadInput : List Char :=
  "\x7b\"success\": false, \"code\": 40099, \"msg\": \"Bad Input\"\x7d".toList

/-- Traditional-path oracle that always yields the 40099 payload. -/
def oBad40099 : ClipOracles :=
  ⟨fun _ => false, fun _ => none, fun _ => some payloadBadInput,
    fun _ => false, fun _ => none⟩

/-- Traditional-path oracle: the 50000 payload on attempt 1, then a
share link. -/
def oServerThenLink : ClipOracles :=
  ⟨fun _ => false, fun _ => none,
    fun i => if i = 0 then some payloadServerError
      else some "https://www.tradingview.com/x/AbCd".toList,
    fun _ => false, fun _ => none⟩

/-- C2 counterexample: the `{"success": false, "code": 40099, "msg":
"Bad Input"}` payload is *not* treated as ordinary empty content — the
classification does not fire, so the loop returns the payload itself
as successful content on the first attempt, instead of the exhaustion
outcome that empty content would produce. -/
theorem bad_code_payload_returned_as_content :
    get_clipboard_content false oBad40099 = .content payloadBadInput 1
    ∧ ClipResult.content payloadBadInput 1
        ≠ .exhausted MAX_CLIPBOARD_ATTEMPTS := by
  decide

/-- C2 (amended): the 50000 payload is classified retryable
(`TradingViewClipboardServerError` is raised and absorbed into an
internal retry: it neither fails the request nor is returned as
content, and the next attempt's link is returned), while the 40099
payload is not classified (it is treated as ordinary *non-empty*
clipboard content and returned as the result of the first attempt). -/
theorem server_error_retried_bad_code_returned :
    isRetryableServerErrorPayload payloadServerError = true
    ∧ isRetryableServerErrorPayload payloadBadInput = false
    ∧ get_clipboard_content false oServerThenLink
        = .content "https://www.tradingview.com/x/AbCd".toList 2
    ∧ get_clipboard_content false oBad40099 = .content payloadBadInput 1 := by
  decide

/-! ### C9 — error classes in the link-capture retry loop -/

/-- Trigger-oracle whose clipboard read fails with a WebDriver error on
attempt 1 and yields a link on attempt 2. -/
def oReadErrW : TrigOracles :=
  ⟨fun _ => false,
    fun i => if i = 0 then .wdErr
      else .text (some "https://www.tradingview.com/x/AbCd".toList)⟩

/-- C9 counterexample: a WebDriver-level error during the clipboard
*read* does not abort the retry loop — the source catches it inside
the attempt (lines 659-660, 671-673), treats the attempt as empty and
retries, succeeding on the next attempt; the claim's immediate abort
would instead give `⟨none, 1, true⟩`. -/
theorem read_error_retries_not_aborts :
    trigger_screenshot_and_get_link oReadErrW
      = ⟨some "https://www.tradingview.com/x/AbCd".toList, 2, false⟩
    ∧ (⟨some "https://www.tradingview.com/x/AbCd".toList, 2, false⟩ : TrigResult)
      ≠ ⟨none, 1, true⟩ := by
  decide

/-- C9 (amended): in `_trigger_screenshot_and_get_link`, a
WebDriver-level error during the screenshot *trigger* aborts the retry
loop immediately (no further attempts), while mere emptiness — and a
WebDriver-level error during the clipboard *read*, which the loop
itself catches — lead to the fixed inter-attempt delay and a retry
from the shortcut step. -/
theorem trigger_error_aborts_read_error_retries
    (m k : Nat) (hm : m < MAX_CLIPBOARD_ATTEMPTS)
    (hk : k < MAX_CLIPBOARD_ATTEMPTS)
    (v : List Char) (hv : truthyText v = true)
    (oA oR : TrigOracles)
    (hA1 : ∀ j, j < m → oA.trigWdFail j = false)
    (hA2 : ∀ j, j < m → trigContinues (oA.read j) = true)
    (hA3 : oA.trigWdFail m = true)
    (hR0 : ∀ j, oR.trigWdFail j = false)
    (hR1 : ∀ j, j < k → oR.read j = .wdErr)
    (hR2 : oR.read k = .text (some v)) :
    trigger_screenshot_and_get_link oA = ⟨none, m + 1, true⟩
    ∧ trigger_screenshot_and_get_link oR = ⟨some (pyStrip v), k + 1, false⟩ := by
  constructor
  · have := trigAttempts_abort oA m 0 MAX_CLIPBOARD_ATTEMPTS hm
      (fun j hj => ⟨by simpa using hA1 j hj, by simpa using hA2 j hj⟩)
      (by simpa using hA3)
    simpa [trigger_screenshot_and_get_link] using this
  · have := trigAttempts_success oR v hv k 0 MAX_CLIPBOARD_ATTEMPTS hk
      (fun j hj => ⟨by simpa using hR0 j, by
        have := hR1 j hj
        simp only [Nat.zero_add]
        rw [this]
        rfl⟩)
      (by simpa using hR0 k) (by simpa using hR2)
    simpa [trigger_screenshot_and_get_link] using this

/-- Trigger-oracle for the C9 witness abort part: trigger error on
attempt 2. -/
def oAbortW : TrigOracles :=
  ⟨fun i => i == 1, fun _ => .text none⟩

/-- Trigger-oracle for the C9 witness retry part: read errors on the
first two attempts, then a link. -/
def oReadErr2W : TrigOracles :=
  ⟨fun _ => false,
    fun i => if i ≤ 1 then .wdErr
      else .text (some "https://www.tradingview.com/x/AbCd".toList)⟩

/-- Witness for C9 at `m = 1`, `k = 2`. -/
theorem trigger_error_aborts_witness :
    1 < MAX_CLIPBOARD_ATTEMPTS ∧ 2 < MAX_CLIPBOARD_ATTEMPTS
    ∧ truthyText "https://www.tradingview.com/x/AbCd".toList = true
    ∧ trigger_screenshot_and_get_link oAbortW = ⟨none, 2, true⟩
    ∧ trigger_screenshot_and_get_link oReadErr2W
        = ⟨some (pyStrip "https://www.tradingview.com/x/AbCd".toList), 3, false⟩ := by
  have h := trigger_error_aborts_read_error_retries 1 2 (by decide) (by decide)
    "https://www.tradingview.com/x/AbCd".toList (by decide) oAbortW oReadErr2W
    (by decide) (by decide) (by decide)
    (fun _ => rfl) (by decide) (by decide)
  exact ⟨by decide, by decide, by decide, h.1, h.2⟩

/-! ### C7 — validation of empty ticker/interval -/

/-- Trigger-oracle that never yields content (unused by the rejected
request, but needed to form the call). -/
def oEmptyW : TrigOracles := ⟨fun _ => false, fun _ => .text none⟩

/-- C7 counterexample: for the empty-ticker request the MCP tool flow
*does* acquire the Session Resource — the `with TradingViewScraper`
statement initializes the driver before `get_screenshot_link` runs its
validation — contradicting the claim that no Session Resource is
acquired before the rejection. -/
theorem session_acquired_despite_empty_ticker :
    get_tradingview_chart_image [] "15".toList false oEmptyW
      = (.inputError, [Ev.acquireSession, Ev.releaseSession])
    ∧ Ev.acquireSession
        ∈ (get_tradingview_chart_image [] "15".toList false oEmptyW).2 := by
  decide

/-- C7 (amended): for every request with an empty ticker or an empty
interval, `get_screenshot_link` raises `ValueError` (surfaced by the
tool as its input-error outcome) and no auth, navigation, or capture
interaction occurs before the rejection; the Session Resource,
however, has already been acquired by the surrounding context manager,
and is released. -/
theorem empty_request_rejected_after_acquire
    (ticker interval : List Char) (h : ticker = [] ∨ interval = [])
    (navRaises : Bool) (oG : TrigOracles) :
    get_tradingview_chart_image ticker interval navRaises oG
      = (.inputError, [Ev.acquireSession, Ev.releaseSession]) := by
  unfold get_tradingview_chart_image get_screenshot_link
  simp [h]

/-- Witness for C7 at an empty interval. -/
theorem empty_request_rejected_after_acquire_witness :
    ("NASDAQ:AAPL".toList = [] ∨ ([] : List Char) = [])
    ∧ get_tradingview_chart_image "NASDAQ:AAPL".toList [] true oEmptyW
        = (.inputError, [Ev.acquireSession, Ev.releaseSession]) :=
  ⟨Or.inr rfl,
    empty_request_rejected_after_acquire _ _ (Or.inr rfl) true oEmptyW⟩

/-! ### C8 — the readiness prober's time bound -/

theorem pollTicks_le (ready : QueryOutcome → Bool) (q : Nat → QueryOutcome) :
    ∀ fuel i, pollTicks ready q i fuel ≤ i + fuel := by
  intro fuel
  induction fuel with
  | zero => intro i; simp [pollTicks]
  | succ f ih =>
    intro i
    unfold pollTicks
    split
    · omega
    · have := ih (i + 1); omega

/-- C8 counterexample: on the infrastructure-timeout path the probing
phase takes `MAX_CHART_WAIT_TIME` plus the 0.5 s fallback sleep —
already strictly more than `MAX_CHART_WAIT_TIME`, contradicting the
claimed bound. -/
theorem probe_exceeds_max_chart_wait :
    (navigate_probe true .timedOut (fun _ => .throws) (fun _ => .throws)).elapsed
      = MAX_CHART_WAIT_TICKS + FALLBACK_SLEEP_TICKS
    ∧ MAX_CHART_WAIT_TICKS + FALLBACK_SLEEP_TICKS > MAX_CHART_WAIT_TICKS
    ∧ (navigate_probe true .timedOut (fun _ => .throws) (fun _ => .throws)).raised
      = false := by
  decide

/-- C8 (amended): for every combination of DOM-query outcomes (elements
present, absent, or queries throwing) in which the infrastructure wait
itself does not fault, the probing phase terminates within
`MAX_CHART_WAIT_TIME + max_element_wait + max_data_wait` (10 s; the
infrastructure-timeout path takes 6.5 s) and does not raise — the
polling loops themselves never raise for any query outcome. -/
theorem probe_bounded_and_loops_never_raise
    (use_save_shortcut : Bool) (infra : InfraOutcome)
    (elemQ gateQ : Nat → QueryOutcome)
    (h : infra = .timedOut
      ∨ ∃ t, t ≤ MAX_CHART_WAIT_TICKS ∧ infra = .found t) :
    (navigate_probe use_save_shortcut infra elemQ gateQ).raised = false
    ∧ (navigate_probe use_save_shortcut infra elemQ gateQ).elapsed
        ≤ MAX_CHART_WAIT_TICKS + MAX_ELEMENT_WAIT_TICKS + MAX_DATA_WAIT_TICKS := by
  rcases h with h | ⟨t, ht, h⟩
  · subst h
    refine ⟨rfl, ?_⟩
    show MAX_CHART_WAIT_TICKS + FALLBACK_SLEEP_TICKS ≤ _
    decide
  · subst h
    refine ⟨rfl, ?_⟩
    have h1 := pollTicks_le elemReady elemQ MAX_ELEMENT_WAIT_TICKS 0
    have h2 := pollTicks_le loadingClear gateQ MAX_LOADING_CHECK_TICKS 0
    have h3 := pollTicks_le dataReady gateQ MAX_DATA_WAIT_TICKS 0
    have hc : MAX_LOADING_CHECK_TICKS ≤ MAX_DATA_WAIT_TICKS := by decide
    unfold navigate_probe
    cases use_save_shortcut with
    | false =>
      simp only [Bool.false_eq_true, if_false]
      revert ht h1 h3
      unfold MAX_CHART_WAIT_TICKS MAX_ELEMENT_WAIT_TICKS MAX_DATA_WAIT_TICKS
      omega
    | true =>
      simp only [if_true]
      revert ht h1 h2 hc
      unfold MAX_CHART_WAIT_TICKS MAX_ELEMENT_WAIT_TICKS MAX_DATA_WAIT_TICKS
        MAX_LOADING_CHECK_TICKS
      omega

/-- Witness for C8 on a run whose queries always throw. -/
theorem probe_bounded_witness :
    (InfraOutcome.found 60 = .timedOut
      ∨ ∃ t, t ≤ MAX_CHART_WAIT_TICKS ∧ InfraOutcome.found 60 = .found t)
    ∧ ((navigate_probe false (.found 60) (fun _ => .throws)
          (fun _ => .throws)).raised = false
      ∧ (navigate_probe false (.found 60) (fun _ => .throws)
          (fun _ => .throws)).elapsed
        ≤ MAX_CHART_WAIT_TICKS + MAX_ELEMENT_WAIT_TICKS + MAX_DATA_WAIT_TICKS) :=
  ⟨Or.inr ⟨60, by decide, rfl⟩,
    probe_bounded_and_loops_never_raise false (.found 60) _ _
      (Or.inr ⟨60, by decide, rfl⟩)⟩

/-! ### C5 — no-match inputs are returned unchanged -/

theorem matchAt_nil : matchAt [] = none := by decide

theorem finditerGo_eq_nil (s : List Char)
    (h : ∀ p, matchAt (s.drop p) = none) :
    ∀ fuel, finditerGo fuel s = [] := by
  induction s with
  | nil => intro fuel; cases fuel <;> rfl
  | cons c t ih =>
    intro fuel
    cases fuel with
    | zero => rfl
    | succ f =>
      have h0 : matchAt (c :: t) = none := by simpa using h 0
      simp only [finditerGo, h0]
      exact ih (fun p => by simpa using h (p + 1)) f

theorem matchAt_none_of_bounded (s : List Char)
    (h : ∀ p, p < s.length → matchAt (s.drop p) = none) :
    ∀ p, matchAt (s.drop p) = none := by
  intro p
  by_cases hp : p < s.length
  · exact h p hp
  · rw [List.drop_eq_nil_of_le (by omega)]
    exact matchAt_nil

/-- C5 counterexample: on the empty string the claimed identity
`convert_link_to_image_url(s) == s` fails — the guard
`if not input_string: return None` (line 1189) returns `None`, which
differs from the empty string. -/
theorem convert_empty_string_none :
    convert_link_to_image_url [] = none
    ∧ (none : Option (List Char)) ≠ some [] := by
  decide

/-- C5 (amended): for every *non-empty* string `s` containing no
substring matching the share-link pattern,
`convert_link_to_image_url(s) == s`; in particular, when `s` contains
the host marker `tradingview.com/x/` but no full pattern match, the
input is returned unchanged and no exception is raised.  (The empty
string instead returns `None`.) -/
theorem convert_no_match_identity (s : List Char) (h0 : s ≠ [])
    (h : ∀ p, p < s.length → matchAt (s.drop p) = none) :
    convert_link_to_image_url s = some s := by
  unfold convert_link_to_image_url
  rw [if_neg h0, finditer,
    finditerGo_eq_nil s (matchAt_none_of_bounded s h) s.length]
  rfl

/-- Witness for C5 on a string containing the bare host marker. -/
theorem convert_no_match_identity_witness :
    "tradingview.com/x/ marker".toList ≠ []
    ∧ (∀ p, p < "tradingview.com/x/ marker".toList.length →
        matchAt ("tradingview.com/x/ marker".toList.drop p) = none)
    ∧ isSubstr litTv "tradingview.com/x/ marker".toList = true
    ∧ convert_link_to_image_url "tradingview.com/x/ marker".toList
        = some "tradingview.com/x/ marker".toList :=
  ⟨by decide, by decide, by decide,
    convert_no_match_identity _ (by decide) (by decide)⟩

/-! ### C1 — single-link substitution

A share link is `https://` + an optional host prefix + the literal
`tradingview.com/x/` + a non-empty alphanumeric id; the regex also
consumes one immediately following `/` if present. -/

/-- The host alternatives of `(?:www\.|in\.)?`. -/
inductive Host
  | bare
  | www
  | inn
deriving DecidableEq, Repr

/-- The characters contributed by the host alternative. -/
def hostStr : Host → List Char
  | .bare => []
  | .www => litWww
  | .inn => litIn

/-- A full share-link match: host variant, id, and whether a trailing
slash is consumed. -/
def mkLink (h : Host) (id : List Char) (slash : Bool) : List Char :=
  litHttps ++ hostStr h ++ litTv ++ id ++ (if slash then ['/'] else [])

/-- Whether the head of a string satisfies `p` (false for the empty
string). -/
def headSat (p : Char → Bool) : List Char → Bool
  | [] => false
  | c :: _ => p c

/-- Whether a string starts with `/`. -/
def headIsSlash : List Char → Bool
  | [] => false
  | c :: _ => decide (c = '/')

theorem litHttps_eq : litHttps = ['h', 't', 't', 'p', 's', ':', '/', '/'] := by
  decide

theorem litWww_eq : litWww = ['w', 'w', 'w', '.'] := by decide

theorem litIn_eq : litIn = ['i', 'n', '.'] := by decide

theorem litTv_eq : litTv = ['t', 'r', 'a', 'd', 'i', 'n', 'g', 'v', 'i', 'e',
    'w', '.', 'c', 'o', 'm', '/', 'x', '/'] := by decide

theorem dropPre_append (p r : List Char) : dropPre p (p ++ r) = some r := by
  induction p with
  | nil => rfl
  | cons c t ih => simp [dropPre, ih]

theorem dropPre_some_eq {p s r : List Char} (h : dropPre p s = some r) :
    s = p ++ r := by
  induction p generalizing s with
  | nil => simp [dropPre] at h; simp [h]
  | cons a ps ih =>
    cases s with
    | nil => simp [dropPre] at h
    | cons c cs =>
      simp only [dropPre] at h
      split at h
      · rename_i heq
        rw [← heq, List.cons_append, ← ih h]
      · exact absurd h (by simp)

theorem hostSplit_mk (h : Host) (rest : List Char) :
    hostSplit (hostStr h ++ (litTv ++ rest)) = (hostStr h, litTv ++ rest) := by
  cases h with
  | bare =>
    have h1 : dropPre litWww (litTv ++ rest) = none := by
      rw [litWww_eq, litTv_eq]; simp [dropPre]
    have h2 : dropPre litIn (litTv ++ rest) = none := by
      rw [litIn_eq, litTv_eq]; simp [dropPre]
    simp only [hostStr, List.nil_append, hostSplit, h1, h2]
  | www =>
    simp only [hostStr, hostSplit, dropPre_append]
  | inn =>
    have h1 : dropPre litWww (litIn ++ (litTv ++ rest)) = none := by
      rw [litWww_eq, litIn_eq]; simp [dropPre]
    simp only [hostStr, hostSplit, h1, dropPre_append]

theorem takeWhile_append_all (p : Char → Bool) :
    ∀ id rest, (∀ c ∈ id, p c = true) → headSat p rest = false →
      (id ++ rest).takeWhile p = id ∧ (id ++ rest).dropWhile p = rest := by
  intro id
  induction id with
  | nil =>
    intro rest _ h2
    cases rest with
    | nil => simp
    | cons c t =>
      simp only [headSat] at h2
      simp [List.takeWhile, List.dropWhile, h2]
  | cons a t ih =>
    intro rest h1 h2
    have ha : p a = true := h1 a (by simp)
    have := ih rest (fun c hc => h1 c (by simp [hc])) h2
    simp [List.takeWhile, List.dropWhile, ha, this.1, this.2]

theorem slashSplit_noSlash (b : List Char) (h : headIsSlash b = false) :
    slashSplit b = ([], b) := by
  cases b with
  | nil => rfl
  | cons c t =>
    simp only [headIsSlash, decide_eq_false_iff_not] at h
    simp [slashSplit, h]

/-- The match function on a constructed link followed by text that
cannot extend the match. -/
theorem matchAt_mkLink (h : Host) (id : List Char) (sl : Bool) (b : List Char)
    (hid : id ≠ []) (hal : ∀ c ∈ id, isAlnumChar c = true)
    (hb1 : headSat isAlnumChar b = false)
    (hb2 : sl = false → headIsSlash b = false) :
    matchAt (mkLink h id sl ++ b) = some (mkLink h id sl, id, b) := by
  have key : ∀ tail : List Char, headSat isAlnumChar (tail ++ b) = false →
      slashSplit (tail ++ b) = (tail, b) →
      matchAt (litHttps ++ (hostStr h ++ (litTv ++ (id ++ (tail ++ b)))))
        = some (litHttps ++ hostStr h ++ litTv ++ id ++ tail, id, b) := by
    intro tail htail hslash
    unfold matchAt
    simp only [dropPre_append, hostSplit_mk]
    obtain ⟨htw, hdw⟩ := takeWhile_append_all isAlnumChar id (tail ++ b) hal htail
    simp only [htw, hdw, if_neg hid, hslash]
  cases sl with
  | true =>
    have hm : mkLink h id true = litHttps ++ hostStr h ++ litTv ++ id ++ ['/'] := by
      simp [mkLink]
    rw [hm, show (litHttps ++ hostStr h ++ litTv ++ id ++ ['/']) ++ b
        = litHttps ++ (hostStr h ++ (litTv ++ (id ++ (['/'] ++ b)))) from by
      simp [List.append_assoc]]
    exact key ['/']
      (by simp only [List.cons_append, List.nil_append, headSat]; decide)
      (by simp [slashSplit])
  | false =>
    have hm : mkLink h id false = litHttps ++ hostStr h ++ litTv ++ id ++ [] := by
      simp [mkLink]
    rw [hm, show (litHttps ++ hostStr h ++ litTv ++ id ++ []) ++ b
        = litHttps ++ (hostStr h ++ (litTv ++ (id ++ ([] ++ b)))) from by
      simp [List.append_assoc]]
    exact key [] (by simpa using hb1)
      (by simpa using slashSplit_noSlash b (hb2 rfl))

/-- Anywhere the link text occurs, the pattern matches (possibly more
greedily); used to turn pattern-uniqueness into occurrence-uniqueness. -/
theorem matchAt_isSome_mkLink (h : Host) (id : List Char) (sl : Bool)
    (r : List Char) (hid : id ≠ []) (hal : ∀ c ∈ id, isAlnumChar c = true) :
    matchAt (mkLink h id sl ++ r) ≠ none := by
  match id, hid with
  | a :: t, _ =>
    have ha : isAlnumChar a = true := hal a (by simp)
    have hassoc : mkLink h (a :: t) sl ++ r
        = litHttps ++ (hostStr h ++ (litTv
            ++ (a :: (t ++ ((if sl then ['/'] else []) ++ r))))) := by
      simp [mkLink, List.append_assoc]
    rw [hassoc]
    unfold matchAt
    simp only [dropPre_append, hostSplit_mk]
    have htw : (a :: (t ++ ((if sl then ['/'] else []) ++ r))).takeWhile isAlnumChar
        = a :: ((t ++ ((if sl then ['/'] else []) ++ r)).takeWhile isAlnumChar) := by
      simp [List.takeWhile, ha]
    rw [htw]
    simp

theorem finditerGo_single (m id b : List Char)
    (hmne : m ≠ [])
    (hm : matchAt (m ++ b) = some (m, id, b))
    (hb : ∀ p, matchAt (b.drop p) = none) :
    ∀ a, (∀ p, p < a.length → matchAt ((a ++ m ++ b).drop p) = none) →
    ∀ fuel, (a ++ m ++ b).length ≤ fuel →
      finditerGo fuel (a ++ m ++ b) = [(m, id)] := by
  intro a
  induction a with
  | nil =>
    intro _ fuel hfuel
    obtain ⟨mc, mt, rfl⟩ : ∃ c t, m = c :: t := by
      cases m with
      | nil => exact absurd rfl hmne
      | cons c t => exact ⟨c, t, rfl⟩
    rw [List.nil_append] at hfuel ⊢
    rw [List.cons_append] at hm hfuel ⊢
    match fuel, (show 1 ≤ fuel by simp at hfuel; omega) with
    | f + 1, _ =>
      simp only [finditerGo, hm]
      rw [finditerGo_eq_nil b hb f]
  | cons x a' ih =>
    intro ha fuel hfuel
    have hx : matchAt ((x :: a') ++ m ++ b) = none := by
      simpa using ha 0 (by simp)
    rw [List.cons_append, List.cons_append] at hx hfuel ⊢
    match fuel, (show 1 ≤ fuel by simp at hfuel; omega) with
    | f + 1, _ =>
      simp only [finditerGo, hx]
      exact ih
        (fun p hp => by
          have := ha (p + 1) (by simp; omega)
          simpa using this)
        f (by simp at hfuel ⊢; omega)

theorem replaceCore_no_occ (old new : List Char) (s : List Char)
    (h : ∀ p, dropPre old (s.drop p) = none) :
    ∀ fuel, replaceCore old new fuel s = s := by
  induction s with
  | nil => intro fuel; cases fuel <;> rfl
  | cons c t ih =>
    intro fuel
    cases fuel with
    | zero => rfl
    | succ f =>
      have h0 : dropPre old (c :: t) = none := by simpa using h 0
      simp only [replaceCore, h0]
      rw [ih (fun p => by simpa using h (p + 1)) f]

theorem replaceCore_single (old new b : List Char) (hone : old ≠ [])
    (hb : ∀ p, dropPre old (b.drop p) = none) :
    ∀ a, (∀ p, p < a.length → dropPre old ((a ++ old ++ b).drop p) = none) →
    ∀ fuel, (a ++ old ++ b).length ≤ fuel →
      replaceCore old new fuel (a ++ old ++ b) = a ++ new ++ b := by
  intro a
  induction a with
  | nil =>
    intro _ fuel hfuel
    obtain ⟨oc, ot, rfl⟩ : ∃ c t, old = c :: t := by
      cases old with
      | nil => exact absurd rfl hone
      | cons c t => exact ⟨c, t, rfl⟩
    have hd : dropPre (oc :: ot) ((oc :: ot) ++ b) = some b := dropPre_append _ _
    rw [List.nil_append] at hfuel ⊢
    rw [List.cons_append] at hd hfuel ⊢
    match fuel, (show 1 ≤ fuel by simp at hfuel; omega) with
    | f + 1, _ =>
      simp only [replaceCore, hd]
      rw [replaceCore_no_occ _ new b hb f]
      rfl
  | cons x a' ih =>
    intro ha fuel hfuel
    have hx : dropPre old ((x :: a') ++ old ++ b) = none := by
      simpa using ha 0 (by simp)
    rw [List.cons_append, List.cons_append] at hx hfuel ⊢
    match fuel, (show 1 ≤ fuel by simp at hfuel; omega) with
    | f + 1, _ =>
      simp only [replaceCore, hx]
      rw [ih
        (fun p hp => by
          have := ha (p + 1) (by simp; omega)
          simpa using this)
        f (by simp at hfuel ⊢; omega)]
      rfl

theorem isSubstr_append (a m b : List Char) (hm : m ≠ []) :
    isSubstr m (a ++ m ++ b) = true := by
  induction a with
  | nil =>
    obtain ⟨mc, mt, rfl⟩ : ∃ c t, m = c :: t := by
      cases m with
      | nil => exact absurd rfl hm
      | cons c t => exact ⟨c, t, rfl⟩
    have hd : dropPre (mc :: mt) ((mc :: mt) ++ b) = some b := dropPre_append _ _
    rw [List.cons_append] at hd
    simp only [List.nil_append]
    rw [List.cons_append]
    simp [isSubstr, hd]
  | cons x a' ih =>
    rw [List.cons_append, List.cons_append]
    simp only [isSubstr, Bool.or_eq_true]
    exact Or.inr ih

theorem drop_append_length (x y : List Char) (p : Nat) :
    (x ++ y).drop (x.length + p) = y.drop p := by
  induction x with
  | nil => simp
  | cons c t ih =>
    rw [List.cons_append, List.length_cons,
      show t.length + 1 + p = (t.length + p) + 1 by omega, List.drop_succ_cons]
    exact ih

/-- C1 counterexample: on an input whose single share link is followed
by `/`, the regex consumes the slash as part of the match, so the
output is *not* the input with only the link
`https://www.tradingview.com/x/Ab` replaced (which would preserve the
`/` as surrounding text): the slash disappears. -/
theorem convert_consumes_trailing_slash :
    convert_link_to_image_url "see https://www.tradingview.com/x/Ab/ ok".toList
      = some "see https://s3.tradingview.com/snapshots/a/Ab.png ok".toList
    ∧ some "see https://s3.tradingview.com/snapshots/a/Ab.png ok".toList
      ≠ some "see https://s3.tradingview.com/snapshots/a/Ab.png/ ok".toList := by
  decide

/-- C1 (amended): for every input containing exactly one share link —
formalized: the input splits as `a ++ link ++ b` where the link has a
non-empty alphanumeric id that the following text cannot extend, and
the pattern matches at no position inside `a` and at no position of
`b` (together with the link's own match this is "exactly one share
link"; positions strictly inside the link's span are skipped by both
the scanner and the replacement) — `convert_link_to_image_url` returns
the input with the full matched text (the link together with at most
one immediately following `/`, which the pattern consumes) replaced by
`https://s3.tradingview.com/snapshots/<c>/<id>.png`, where `<c>` is
the first character of `<id>` lower-cased, and with all text around
the matched text preserved unchanged. -/
theorem convert_single_link (a b id : List Char) (h : Host) (sl : Bool)
    (hid : id ≠ []) (hal : ∀ c ∈ id, isAlnumChar c = true)
    (hb1 : headSat isAlnumChar b = false)
    (hb2 : sl = false → headIsSlash b = false)
    (hano : ∀ p, p < a.length →
      matchAt ((a ++ mkLink h id sl ++ b).drop p) = none)
    (hbno : ∀ p, p < b.length → matchAt (b.drop p) = none) :
    convert_link_to_image_url (a ++ mkLink h id sl ++ b)
      = some (a ++ snapshotUrl id ++ b) := by
  have hmne : mkLink h id sl ≠ [] := by
    rw [mkLink, litHttps_eq]
    simp
  have hmatch : matchAt (mkLink h id sl ++ b) = some (mkLink h id sl, id, b) :=
    matchAt_mkLink h id sl b hid hal hb1 hb2
  have hbnone : ∀ p, matchAt (b.drop p) = none := matchAt_none_of_bounded b hbno
  have hfind : finditer (a ++ mkLink h id sl ++ b) = [(mkLink h id sl, id)] := by
    rw [finditer]
    exact finditerGo_single (mkLink h id sl) id b hmne hmatch hbnone a hano
      _ le_rfl
  have hocc_b : ∀ p, dropPre (mkLink h id sl) (b.drop p) = none := by
    intro p
    cases hdp : dropPre (mkLink h id sl) (b.drop p) with
    | none => rfl
    | some r =>
      have heq := dropPre_some_eq hdp
      have hn := hbnone p
      rw [heq] at hn
      exact absurd hn (matchAt_isSome_mkLink h id sl r hid hal)
  have hocc_a : ∀ p, p < a.length →
      dropPre (mkLink h id sl) ((a ++ mkLink h id sl ++ b).drop p) = none := by
    intro p hp
    cases hdp : dropPre (mkLink h id sl) ((a ++ mkLink h id sl ++ b).drop p) with
    | none => rfl
    | some r =>
      have heq := dropPre_some_eq hdp
      have hn := hano p hp
      rw [heq] at hn
      exact absurd hn (matchAt_isSome_mkLink h id sl r hid hal)
  have hsne : a ++ mkLink h id sl ++ b ≠ [] := by
    intro hc
    rcases List.append_eq_nil.mp hc with ⟨h1, -⟩
    rcases List.append_eq_nil.mp h1 with ⟨-, h2⟩
    exact hmne h2
  unfold convert_link_to_image_url
  rw [if_neg hsne, hfind]
  simp only [processMatches, isSubstr_append a (mkLink h id sl) b hmne, if_true]
  obtain ⟨mc, mt, hmk⟩ : ∃ c t, mkLink h id sl = c :: t := by
    cases hmk : mkLink h id sl with
    | nil => exact absurd hmk hmne
    | cons c t => exact ⟨c, t, rfl⟩
  rw [hmk] at hocc_a hocc_b ⊢
  simp only [pyReplace]
  rw [replaceCore_single (mc :: mt) (snapshotUrl id) b (by simp) hocc_b a hocc_a
    _ le_rfl]

/-- Witness for C1: one `www.` link with surrounding text. -/
theorem convert_single_link_witness :
    "AbCdEf12".toList ≠ []
    ∧ (∀ c ∈ "AbCdEf12".toList, isAlnumChar c = true)
    ∧ headSat isAlnumChar " please".toList = false
    ∧ headIsSlash " please".toList = false
    ∧ (∀ p, p < "see ".toList.length →
        matchAt (("see ".toList ++ mkLink .www "AbCdEf12".toList false
          ++ " please".toList).drop p) = none)
    ∧ (∀ p, p < " please".toList.length →
        matchAt (" please".toList.drop p) = none)
    ∧ convert_link_to_image_url ("see ".toList
        ++ mkLink .www "AbCdEf12".toList false ++ " please".toList)
      = some ("see ".toList ++ snapshotUrl "AbCdEf12".toList
        ++ " please".toList) :=
  ⟨by decide, by decide, by decide, by decide, by decide, by decide,
    convert_single_link "see ".toList " please".toList "AbCdEf12".toList
      .www false (by decide) (by decide) (by decide) (fun _ => by decide)
      (by decide) (by decide)⟩

end TView
